import Mathlib

/-!
Verification of the kiln-runner control program: a shallow embedding of the
event bus (`src/kilnrunner/event.py`), the firing-segment / firing-schedule
state machine (`src/kilnrunner/schedule.py`) and the heater variants
(`src/kilnrunner/heater.py`), with theorems settling the specification claims
about them.  Python floats are modelled by rationals; wall-clock durations by
rationals (seconds); handler identity by an arbitrary type with decidable
equality.
-/

namespace KilnRunner

/-! ## Event bus (`event.py`)

`_subscribers[event_type]` is a Python list; we model the list for one fixed
event type.

`unsubscribe` runs `subscriber = _subscribers[event_type].index(callback)`,
which raises `ValueError` when the callback is absent, then
`_subscribers[event_type].pop(subscriber)`.  (`index` never returns `None`,
so the `if subscriber is not None` guard is always taken when `index`
succeeds.)  We model the raise with `Except`. -/

/-- Python `list.index(x)`: index of the first element equal to `x`, or a
`ValueError` (here `none`) when absent. -/
def pyIndex {H : Type} [DecidableEq H] : List H → H → Option Nat
  | [], _ => none
  | a :: l, c => if a = c then some 0 else (pyIndex l c).map (· + 1)

def unsubscribe {H : Type} [DecidableEq H] (subs : List H) (callback : H) :
    Except Unit (List H) :=
  match pyIndex subs callback with
  | none => .error ()
  | some i => .ok (subs.eraseIdx i)

/-- Model of `post_event`: it runs `for callback_function in _subscribers[event_type]:
callback_function(selector, data)`.  Python iterates the LIVE list with an
internal cursor: at step `i` it reads `lst[i]`, runs the handler (which may
mutate the subscription list; `eff h s` is the list after handler `h` runs on
list `s`), then moves to `i+1` against the mutated list.  Returns the final
subscriber list and the sequence of handlers invoked, in invocation order.
The fuel argument bounds the iteration; since the handlers of this program
only ever unsubscribe (never subscribe) during a dispatch, the list never
grows and `lst.length` fuel is exact. -/
def dispatchAux {H : Type} (eff : H → List H → List H) :
    Nat → Nat → List H → List H → List H × List H
  | 0, _, lst, invoked => (lst, invoked)
  | fuel + 1, i, lst, invoked =>
    match lst[i]? with
    | none => (lst, invoked)
    | some h => dispatchAux eff fuel (i + 1) (eff h lst) (invoked ++ [h])

def post_event {H : Type} (eff : H → List H → List H) (subs : List H) :
    List H × List H :=
  dispatchAux eff subs.length 0 subs []

/-- For C1's counterexample: handler `0` unsubscribes itself
(`unsubscribe` on the dispatched event type, i.e. `pop` at its index),
every other handler leaves the subscription list alone. -/
def effUnsubscribeSelf : Nat → List Nat → List Nat :=
  fun h s => if h = 0 then s.erase 0 else s

lemma dispatchAux_of_id {H : Type} (eff : H → List H → List H)
    (heff : ∀ g s, eff g s = s) :
    ∀ (fuel i : Nat) (lst acc : List H), lst.length - i ≤ fuel →
      dispatchAux eff fuel i lst acc = (lst, acc ++ lst.drop i) := by
  intro fuel
  induction fuel with
  | zero =>
    intro i lst acc hle
    have hi : lst.length ≤ i := Nat.le_of_sub_eq_zero (Nat.le_zero.mp hle)
    simp [dispatchAux, List.getElem?_eq_none hi, List.drop_eq_nil_of_le hi]
  | succ fuel ih =>
    intro i lst acc hle
    rcases hxi : lst[i]? with _ | h
    · have hi : lst.length ≤ i := List.getElem?_eq_none_iff.mp hxi
      simp [dispatchAux, hxi, List.drop_eq_nil_of_le hi]
    · have hi : i < lst.length := by
        by_contra hc
        simp [List.getElem?_eq_none (Nat.le_of_not_lt hc)] at hxi
      have hrec : lst.length - (i + 1) ≤ fuel := by omega
      have hdrop : lst.drop i = lst[i] :: lst.drop (i + 1) :=
        List.drop_eq_getElem_cons hi
      have hh : h = lst[i] := by
        have := List.getElem?_eq_getElem hi
        rw [hxi] at this; exact Option.some.inj this
      simp only [dispatchAux, hxi, heff, ih (i + 1) lst (acc ++ [h]) hrec]
      rw [hdrop, hh]
      simp

lemma dispatchAux_not_invoked {H : Type} (eff : H → List H → List H)
    (heff : ∀ g s, (eff g s).Sublist s) (c : H) :
    ∀ (fuel i : Nat) (lst acc : List H), c ∉ lst → c ∉ acc →
      c ∉ (dispatchAux eff fuel i lst acc).2 := by
  intro fuel
  induction fuel with
  | zero => intro i lst acc _ hacc; simpa [dispatchAux] using hacc
  | succ fuel ih =>
    intro i lst acc hlst hacc
    rcases hxi : lst[i]? with _ | h
    · simpa [dispatchAux, hxi] using hacc
    · have hmem : h ∈ lst := List.getElem?_mem hxi
      have hne : c ≠ h := fun hc => hlst (hc ▸ hmem)
      simp only [dispatchAux, hxi]
      exact ih (i + 1) (eff h lst) (acc ++ [h])
        (fun hc => hlst ((heff h lst).mem hc))
        (by simp [hacc, hne])

/-- C1 (counterexample): with two handlers registered, the first of which
unsubscribes itself during the dispatch, `post_event` invokes only the first
handler — the second, registered when the dispatch began and never
unsubscribed, is skipped because the loop iterates the live list.  The claim
says both would be invoked, in order. -/
theorem post_event_skips_handler_after_self_unsubscribe :
    (post_event effUnsubscribeSelf [0, 1]).2 = [0] ∧
      (1 : Nat) ∈ [0, 1] ∧ (1 : Nat) ∉ (post_event effUnsubscribeSelf [0, 1]).2 ∧
      (post_event effUnsubscribeSelf [0, 1]).2 ≠ [0, 1] := by
  decide

/-- C1 (amended): when no handler of the dispatched event type modifies that
type's subscription list during the dispatch, `post_event` invokes exactly the
handlers registered at dispatch start, once each, in registration order; and
for unsubscribe-only handler effects, a handler absent from the subscription
list when a dispatch begins (e.g. one unsubscribed during an earlier dispatch)
is never invoked by that dispatch. -/
theorem post_event_dispatch_order {H : Type} (eff : H → List H → List H)
    (subs : List H) (c : H) :
    ((∀ g s, eff g s = s) → (post_event eff subs).2 = subs) ∧
      ((∀ g s, (eff g s).Sublist s) → c ∉ subs → c ∉ (post_event eff subs).2) := by
  constructor
  · intro heff
    have := dispatchAux_of_id eff heff subs.length 0 subs [] (by omega)
    simp [post_event, this]
  · intro heff hc
    exact dispatchAux_not_invoked eff heff c subs.length 0 subs [] hc (by simp)

/-- Witness for `post_event_dispatch_order` at a concrete input. -/
theorem post_event_dispatch_order_witness :
    (post_event (fun (_ : Nat) s => s) [3, 4, 5]).2 = [3, 4, 5] ∧
      (6 : Nat) ∉ (post_event (fun (_ : Nat) s => s) [3, 4, 5]).2 := by
  refine ⟨(post_event_dispatch_order (fun _ s => s) [3, 4, 5] 6).1 (fun _ _ => rfl),
    (post_event_dispatch_order (fun _ s => s) [3, 4, 5] 6).2
      (fun _ s => List.Sublist.refl s) (by decide)⟩

/-- C10: `unsubscribe` on a handler that is not registered fails (Python
`list.index` raises `ValueError`); on a registered handler it removes exactly
one instance, the first occurrence, leaving the rest of the list intact. -/
theorem unsubscribe_spec {H : Type} [DecidableEq H] (subs : List H) (c : H) :
    (c ∉ subs → unsubscribe subs c = .error ()) ∧
      (c ∈ subs → unsubscribe subs c = .ok (subs.erase c) ∧
        (subs.erase c).length + 1 = subs.length ∧
        (subs.erase c).count c + 1 = subs.count c) := by
  constructor
  · intro hnot
    have hidx : pyIndex subs c = none := by
      induction subs with
      | nil => rfl
      | cons a l ih =>
        have hne : a ≠ c := fun h => hnot (by simp [h])
        have : c ∉ l := fun h => hnot (List.mem_cons_of_mem a h)
        simp [pyIndex, hne, ih this]
    simp [unsubscribe, hidx]
  · intro hmem
    have hok : unsubscribe subs c = .ok (subs.erase c) := by
      induction subs with
      | nil => cases hmem
      | cons a l ih =>
        by_cases ha : a = c
        · simp [unsubscribe, pyIndex, ha, List.erase_cons_head]
        · have hmem2 : c ∈ l := by
            rcases List.mem_cons.mp hmem with h | h
            · exact absurd h.symm ha
            · exact h
          have hok2 := ih hmem2
          rcases hidx : pyIndex l c with _ | i
          · simp [unsubscribe, hidx] at hok2
          · simp only [unsubscribe, hidx] at hok2
            have herase : l.eraseIdx i = l.erase c := by
              simpa using hok2
            simp [unsubscribe, pyIndex, ha, hidx, List.eraseIdx_cons_succ,
              herase, List.erase_cons_tail, Ne.symm ha]
    refine ⟨hok, ?_, ?_⟩
    · have := List.length_erase_of_mem hmem
      have hpos : 0 < subs.length := List.length_pos.mpr
        (fun h => by simp [h] at hmem)
      omega
    · have := List.count_erase_self c subs
      have hpos : 0 < subs.count c := List.count_pos_iff.mpr hmem
      omega

/-- Witness for `unsubscribe_spec` at a concrete input. -/
theorem unsubscribe_spec_witness :
    unsubscribe [7, 8] 9 = .error () ∧
      unsubscribe [7, 8, 7] 7 = .ok ([7, 8, 7].erase 7) := by
  refine ⟨(unsubscribe_spec [7, 8] 9).1 (by decide),
    ((unsubscribe_spec [7, 8, 7] 7).2 (by decide)).1⟩

/-! ## FiringSchedule cursor (`schedule.py`, `handle_segment_finished`)

State of a `FiringSchedule` as far as `handle_segment_finished` touches it:
the segment count, the cursor `current_segment_index`, whether
`handle_segment_finished` is still subscribed to `SEGMENT_FINISHED_EVENT`,
and how many `SCHEDULE_FINISHED_EVENT`s it has posted. -/

structure ScheduleState where
  numSegments : Nat
  current_segment_index : Nat
  finishedSubscribed : Bool
  scheduleFinishedPosts : Nat
deriving DecidableEq

/-- Handler `handle_segment_finished`: increments the cursor; while segments remain it
activates the next one (posting `SCHEDULE_NEXT_SEGMENT_EVENT`), otherwise it
unsubscribes itself from `SEGMENT_FINISHED_EVENT` and posts
`SCHEDULE_FINISHED_EVENT`. -/
def handle_segment_finished (s : ScheduleState) : ScheduleState :=
  let idx := s.current_segment_index + 1
  if idx < s.numSegments then
    { s with current_segment_index := idx }
  else
    { s with current_segment_index := idx, finishedSubscribed := false,
             scheduleFinishedPosts := s.scheduleFinishedPosts + 1 }

/-- One `SEGMENT_FINISHED_EVENT` delivered through the bus: the handler runs
only while it is subscribed. -/
def deliverSegmentFinished (s : ScheduleState) : ScheduleState :=
  if s.finishedSubscribed then handle_segment_finished s else s

def deliverSegmentFinishedN : Nat → ScheduleState → ScheduleState
  | 0, s => s
  | k + 1, s => deliverSegmentFinishedN k (deliverSegmentFinished s)

/-- State right after `handle_kiln_initialised` on a schedule of `n` segments:
cursor at 0, `handle_segment_finished` subscribed (from `__init__`), no
`SCHEDULE_FINISHED_EVENT` posted yet.  (`handle_kiln_initialised` indexes
`segments[0]`, so the schedule only starts when `n ≥ 1`.) -/
def scheduleStart (n : Nat) : ScheduleState := ⟨n, 0, true, 0⟩

lemma deliverSegmentFinishedN_succ (k : Nat) (s : ScheduleState) :
    deliverSegmentFinishedN (k + 1) s =
      deliverSegmentFinished (deliverSegmentFinishedN k s) := by
  induction k generalizing s with
  | zero => rfl
  | succ k ih =>
    rw [deliverSegmentFinishedN, ih, deliverSegmentFinishedN]

lemma deliverSegmentFinishedN_closed (n k : Nat) (hn : 1 ≤ n) :
    deliverSegmentFinishedN k (scheduleStart n) =
      ⟨n, min k n, decide (k < n), if n ≤ k then 1 else 0⟩ := by
  induction k with
  | zero =>
    simp [deliverSegmentFinishedN, scheduleStart, Nat.zero_min,
      (show 0 < n by omega), Nat.not_le.mpr hn]
  | succ k ih =>
    rw [deliverSegmentFinishedN_succ, ih]
    by_cases hk : k < n
    · by_cases hk1 : k + 1 < n
      · simp [deliverSegmentFinished, handle_segment_finished,
          Nat.min_eq_left hk.le, Nat.min_eq_left (Nat.le_of_lt hk1), hk, hk1,
          Nat.not_le.mpr hk, Nat.not_le.mpr hk1]
      · simp [deliverSegmentFinished, handle_segment_finished,
          Nat.min_eq_left hk.le, hk, hk1, Nat.not_le.mpr hk,
          Nat.min_eq_right (by omega : n ≤ k + 1), (by omega : n ≤ k + 1)]
        omega
    · simp [deliverSegmentFinished, hk,
        Nat.min_eq_right (by omega : n ≤ k), Nat.min_eq_right (by omega : n ≤ k + 1),
        (by omega : n ≤ k), (by omega : n ≤ k + 1)]

/-- C2: starting from a just-initialised schedule of `n ≥ 1` segments, each
handling of `SEGMENT_FINISHED_EVENT` increments `current_segment_index` by
exactly 1; after any number `k` of `SEGMENT_FINISHED_EVENT`s the cursor equals
`min k n`, so it never exceeds the segment count; `SCHEDULE_FINISHED_EVENT` is
posted exactly once as soon as the cursor reaches `n`; and the handler is
subscribed exactly while `k < n`, so no later `SEGMENT_FINISHED_EVENT`
advances the cursor again. -/
theorem schedule_cursor_invariant (n k : Nat) (hn : 1 ≤ n) :
    (∀ s : ScheduleState,
        (handle_segment_finished s).current_segment_index =
          s.current_segment_index + 1) ∧
      (deliverSegmentFinishedN k (scheduleStart n)).current_segment_index =
        min k n ∧
      (deliverSegmentFinishedN k (scheduleStart n)).current_segment_index ≤ n ∧
      (deliverSegmentFinishedN k (scheduleStart n)).scheduleFinishedPosts =
        (if n ≤ k then 1 else 0) ∧
      (deliverSegmentFinishedN k (scheduleStart n)).finishedSubscribed =
        decide (k < n) := by
  refine ⟨?_, ?_, ?_, ?_, ?_⟩
  · intro s
    unfold handle_segment_finished
    by_cases h : s.current_segment_index + 1 < s.numSegments <;> simp [h]
  · rw [deliverSegmentFinishedN_closed n k hn]
  · rw [deliverSegmentFinishedN_closed n k hn]
    exact Nat.min_le_right k n
  · rw [deliverSegmentFinishedN_closed n k hn]
  · rw [deliverSegmentFinishedN_closed n k hn]

/-- Witness for `schedule_cursor_invariant`: two segments, five
`SEGMENT_FINISHED_EVENT`s. -/
theorem schedule_cursor_invariant_witness :
    (∀ s : ScheduleState,
        (handle_segment_finished s).current_segment_index =
          s.current_segment_index + 1) ∧
      (deliverSegmentFinishedN 5 (scheduleStart 2)).current_segment_index =
        min 5 2 ∧
      (deliverSegmentFinishedN 5 (scheduleStart 2)).current_segment_index ≤ 2 ∧
      (deliverSegmentFinishedN 5 (scheduleStart 2)).scheduleFinishedPosts =
        (if 2 ≤ 5 then 1 else 0) ∧
      (deliverSegmentFinishedN 5 (scheduleStart 2)).finishedSubscribed =
        decide (5 < 2) :=
  schedule_cursor_invariant 2 5 (by decide)

/-! ## Heaters (`heater.py`)

Zone identity is modelled by `Nat`; the event selector of a
`SCHEDULE_FINISHED_EVENT` is an `Option Nat` (`None` in the program, but the
handlers ignore it, so we quantify over it).  Python floats are modelled by
`ℚ`. -/

inductive HeaterEvent where
  | zoneHeaterPowerChanged (zone : Nat) (power : ℚ)
deriving DecidableEq

/-- Python float `//`: floor division. -/
def pyFloorDiv (x y : ℚ) : ℚ := ⌊x / y⌋

/-- Python `int(...)` on a float: truncation toward zero. -/
def pyInt (x : ℚ) : ℤ := if 0 ≤ x then ⌊x⌋ else ⌈x⌉

lemma pyInt_intCast (i : ℤ) : pyInt (i : ℚ) = i := by
  unfold pyInt
  split <;> simp

/-- Handler `HeaterVIRTUAL.handle_schedule_finished`: sets `power_percent = 0.0` and
posts `ZONE_HEATER_POWER_CHANGED_EVENT` for its own zone with power `0.0`,
ignoring the event's selector and data entirely (no own-zone filter). -/
def heaterVIRTUAL_handle_schedule_finished (self_zone : Nat)
    (event_domain : Option Nat) (data : Option ℚ) (power_percent : ℚ) :
    ℚ × List HeaterEvent :=
  (0, [.zoneHeaterPowerChanged self_zone 0])

/-- State of a `HeaterSSRPWM`: its `power_percent` and the SSR `duty_cycle`
last written (a 16-bit scaled value; written as `0.0` by
`handle_schedule_finished` and as an `int` by
`handle_controller_output_change`, hence `ℚ`). -/
structure PWMState where
  power_percent : ℚ
  duty_cycle : ℚ
deriving DecidableEq

/-- Handler `HeaterSSRPWM.handle_schedule_finished`: sets `power_percent = 0.0` and
`ssr.duty_cycle = 0.0`, ignoring selector and data (no own-zone filter, no
event posted). -/
def heaterSSRPWM_handle_schedule_finished (event_domain : Option Nat)
    (data : Option ℚ) (st : PWMState) : PWMState :=
  ⟨0, 0⟩

/-- Handler `HeaterSSRPWM.handle_controller_output_change`: for its own zone,
quantises the requested power with `int(power_percent // 10) * 10`, drives
`ssr.duty_cycle = int((power_percent / 100.0) * 65535.0)` and posts
`ZONE_HEATER_POWER_CHANGED_EVENT` with the quantised power. -/
def heaterSSRPWM_handle_controller_output_change (self_zone event_domain : Nat)
    (power_percent : ℚ) (st : PWMState) : PWMState × List HeaterEvent :=
  if self_zone = event_domain then
    let p : ℚ := (pyInt (pyFloorDiv power_percent 10) * 10 : ℤ)
    let duty : ℚ := (pyInt (p / 100 * 65535) : ℤ)
    (⟨p, duty⟩, [.zoneHeaterPowerChanged self_zone p])
  else
    (st, [])

/-- C3: in every state, both heater variants force `power_percent` to 0 when
handling `SCHEDULE_FINISHED_EVENT`, whatever the event's selector and data
(no own-zone filter); the virtual variant additionally posts
`ZONE_HEATER_POWER_CHANGED_EVENT` with power 0 for its own zone, and the PWM
variant also zeroes the SSR duty cycle. -/
theorem schedule_finished_forces_power_zero (self_zone : Nat)
    (event_domain : Option Nat) (data : Option ℚ) (power_percent : ℚ)
    (st : PWMState) :
    (heaterVIRTUAL_handle_schedule_finished self_zone event_domain data
        power_percent).1 = 0 ∧
      (heaterVIRTUAL_handle_schedule_finished self_zone event_domain data
        power_percent).2 = [.zoneHeaterPowerChanged self_zone 0] ∧
      (heaterSSRPWM_handle_schedule_finished event_domain data st).power_percent
        = 0 ∧
      (heaterSSRPWM_handle_schedule_finished event_domain data st).duty_cycle
        = 0 :=
  ⟨rfl, rfl, rfl, rfl⟩

/-- C9: for a controller output `p` addressed to the PWM heater's own zone
with `0 ≤ p < 100`, the applied `power_percent` is `⌊p/10⌋ * 10` and the SSR
duty cycle is `int((power_percent/100) * 65535)`; for `p = 100` the applied
power is 100 and the duty cycle is the full 65535. -/
theorem pwm_quantisation (self_zone : Nat) (p : ℚ) (st : PWMState)
    (h0 : 0 ≤ p) :
    (p < 100 →
      (heaterSSRPWM_handle_controller_output_change self_zone self_zone p
          st).1.power_percent = (⌊p / 10⌋ : ℚ) * 10 ∧
      (heaterSSRPWM_handle_controller_output_change self_zone self_zone p
          st).1.duty_cycle =
        (pyInt ((heaterSSRPWM_handle_controller_output_change self_zone
          self_zone p st).1.power_percent / 100 * 65535) : ℤ)) ∧
    (p = 100 →
      (heaterSSRPWM_handle_controller_output_change self_zone self_zone p
          st).1.power_percent = 100 ∧
      (heaterSSRPWM_handle_controller_output_change self_zone self_zone p
          st).1.duty_cycle = 65535) := by
  constructor
  · intro _
    constructor
    · simp [heaterSSRPWM_handle_controller_output_change, pyFloorDiv,
        pyInt_intCast]
    · simp [heaterSSRPWM_handle_controller_output_change]
  · intro hp
    subst hp
    have h10 : (100 : ℚ) / 10 = 10 := by norm_num
    have hfl : ⌊(100 : ℚ) / 10⌋ = 10 := by rw [h10]; exact Int.floor_intCast 10
    constructor
    · simp [heaterSSRPWM_handle_controller_output_change, pyFloorDiv, hfl,
        pyInt_intCast]
      norm_num [pyInt]
    · simp [heaterSSRPWM_handle_controller_output_change, pyFloorDiv, hfl,
        pyInt_intCast]
      norm_num [pyInt]

/-- Witness for `pwm_quantisation` at `p = 37`. -/
theorem pwm_quantisation_witness :
    ((37 : ℚ) < 100 →
      (heaterSSRPWM_handle_controller_output_change 0 0 37
          ⟨0, 0⟩).1.power_percent = (⌊(37 : ℚ) / 10⌋ : ℚ) * 10 ∧
      (heaterSSRPWM_handle_controller_output_change 0 0 37
          ⟨0, 0⟩).1.duty_cycle =
        (pyInt ((heaterSSRPWM_handle_controller_output_change 0 0 37
          ⟨0, 0⟩).1.power_percent / 100 * 65535) : ℤ)) ∧
    ((37 : ℚ) = 100 →
      (heaterSSRPWM_handle_controller_output_change 0 0 37
          ⟨0, 0⟩).1.power_percent = 100 ∧
      (heaterSSRPWM_handle_controller_output_change 0 0 37
          ⟨0, 0⟩).1.duty_cycle = 65535) :=
  pwm_quantisation 0 37 ⟨0, 0⟩ (by norm_num)

/-! ## Firing segments (`schedule.py`)

A segment handler receives the elapsed wall-clock time since segment
activation (`datetime.utcnow() - self.start_time`) as a duration in seconds,
modelled by a non-negative `ℚ`. -/

inductive SegmentEvent where
  | setPointChanged (value : ℚ)
  | segmentStarted
  | segmentFinished
deriving DecidableEq

/-- Constant from `FiringSegment.__init__`, which sets `self.temperature_target_tolerance = 5.0`. -/
def temperature_target_tolerance : ℚ := 5

/-- Python `timedelta.seconds`: the whole-seconds component within the day.
`timedelta` normalises a duration of `t` seconds into days, seconds and
microseconds with `0 ≤ seconds < 86400`, so `.seconds = ⌊t⌋ mod 86400`
(and NOT the total duration in seconds, which is `total_seconds()`). -/
def timedeltaSeconds (t : ℚ) : ℤ := ⌊t⌋ % 86400

structure RampConfig where
  target_temperature : ℚ
  temperature_gradient : ℚ
deriving DecidableEq

structure HoldConfig where
  target_temperature : ℚ
  hold_time : ℚ
deriving DecidableEq

/-- Mutable segment state touched by the temperature handlers. -/
structure SegmentState where
  is_active : Bool
  start_temperature_kelvin : ℚ
  latest_kiln_temperature_kelvin : ℚ
  set_point_temperature_kelvin : ℚ
deriving DecidableEq

/-- Handler `FiringSegmentRamp.handle_kiln_temperature_changed`: records the reading;
if inactive, returns; otherwise recomputes the set-point linearly from the
activation temperature using `elapsed_time.seconds` (note: the `seconds`
attribute, which wraps at one day), clamped at the target by `min`/`max`
according to the ramp direction, posts `SEGMENT_SET_POINT_CHANGED_EVENT`, and
posts `SEGMENT_FINISHED_EVENT` when the latest reading is within the fixed
tolerance of the target. -/
def ramp_handle_kiln_temperature_changed (cfg : RampConfig) (st : SegmentState)
    (elapsed : ℚ) (data : ℚ) : SegmentState × List SegmentEvent :=
  let st1 := { st with latest_kiln_temperature_kelvin := data }
  if st1.is_active = false then (st1, [])
  else
    let secs : ℚ := (timedeltaSeconds elapsed : ℤ)
    let sp : ℚ :=
      if st1.start_temperature_kelvin < cfg.target_temperature then
        min cfg.target_temperature
          (st1.start_temperature_kelvin + |secs * cfg.temperature_gradient|)
      else
        max cfg.target_temperature
          (st1.start_temperature_kelvin - |secs * cfg.temperature_gradient|)
    let st2 := { st1 with set_point_temperature_kelvin := sp }
    if |cfg.target_temperature - st2.latest_kiln_temperature_kelvin| <
        temperature_target_tolerance then
      (st2, [SegmentEvent.setPointChanged sp, SegmentEvent.segmentFinished])
    else
      (st2, [SegmentEvent.setPointChanged sp])

/-- Handler `FiringSegmentHold.handle_kiln_temperature_changed`: records the reading;
if inactive, returns; otherwise posts `SEGMENT_SET_POINT_CHANGED_EVENT`
carrying the configured target, and posts `SEGMENT_FINISHED_EVENT` when the
elapsed time strictly exceeds the configured hold duration. -/
def hold_handle_kiln_temperature_changed (cfg : HoldConfig) (st : SegmentState)
    (elapsed : ℚ) (data : ℚ) : SegmentState × List SegmentEvent :=
  let st1 := { st with latest_kiln_temperature_kelvin := data }
  if st1.is_active = false then (st1, [])
  else if elapsed > cfg.hold_time then
    (st1, [SegmentEvent.setPointChanged cfg.target_temperature,
           SegmentEvent.segmentFinished])
  else
    (st1, [SegmentEvent.setPointChanged cfg.target_temperature])

/-- C4: an active Ramp segment posts `SEGMENT_FINISHED_EVENT` on a
kiln-temperature event exactly when the measured temperature is within
5.0 K of the target, whatever the elapsed time since activation. -/
theorem ramp_finishes_iff_within_tolerance (cfg : RampConfig)
    (st : SegmentState) (elapsed data : ℚ) (hact : st.is_active = true) :
    (SegmentEvent.segmentFinished ∈
        (ramp_handle_kiln_temperature_changed cfg st elapsed data).2 ↔
      |cfg.target_temperature - data| < 5) := by
  unfold ramp_handle_kiln_temperature_changed temperature_target_tolerance
  by_cases hC : |cfg.target_temperature - data| < 5 <;> simp [hact, hC]

/-- Witness for `ramp_finishes_iff_within_tolerance`. -/
theorem ramp_finishes_iff_within_tolerance_witness :
    (SegmentEvent.segmentFinished ∈
        (ramp_handle_kiln_temperature_changed ⟨100, 1⟩ ⟨true, 20, 20, 20⟩
          42 98).2 ↔
      |(100 : ℚ) - 98| < 5) :=
  ramp_finishes_iff_within_tolerance ⟨100, 1⟩ ⟨true, 20, 20, 20⟩ 42 98 rfl

/-- C5: an active Hold segment always posts `SEGMENT_SET_POINT_CHANGED_EVENT`
carrying exactly the configured target temperature (every set-point it posts
is the target), and posts `SEGMENT_FINISHED_EVENT` exactly when the elapsed
wall-clock time strictly exceeds the configured hold duration, whatever the
measured temperature. -/
theorem hold_setpoint_constant_and_finishes_by_time (cfg : HoldConfig)
    (st : SegmentState) (elapsed data : ℚ) (hact : st.is_active = true) :
    SegmentEvent.setPointChanged cfg.target_temperature ∈
        (hold_handle_kiln_temperature_changed cfg st elapsed data).2 ∧
      (∀ v : ℚ, SegmentEvent.setPointChanged v ∈
          (hold_handle_kiln_temperature_changed cfg st elapsed data).2 →
        v = cfg.target_temperature) ∧
      (SegmentEvent.segmentFinished ∈
          (hold_handle_kiln_temperature_changed cfg st elapsed data).2 ↔
        elapsed > cfg.hold_time) := by
  unfold hold_handle_kiln_temperature_changed
  by_cases hT : cfg.hold_time < elapsed <;> simp [hact, hT]

/-- Witness for `hold_setpoint_constant_and_finishes_by_time`. -/
theorem hold_setpoint_constant_witness :
    SegmentEvent.setPointChanged (500 : ℚ) ∈
        (hold_handle_kiln_temperature_changed ⟨500, 10⟩ ⟨true, 20, 20, 20⟩
          11 999).2 ∧
      (∀ v : ℚ, SegmentEvent.setPointChanged v ∈
          (hold_handle_kiln_temperature_changed ⟨500, 10⟩ ⟨true, 20, 20, 20⟩
            11 999).2 →
        v = (500 : ℚ)) ∧
      (SegmentEvent.segmentFinished ∈
          (hold_handle_kiln_temperature_changed ⟨500, 10⟩ ⟨true, 20, 20, 20⟩
            11 999).2 ↔
        (11 : ℚ) > 10) :=
  hold_setpoint_constant_and_finishes_by_time ⟨500, 10⟩ ⟨true, 20, 20, 20⟩
    11 999 rfl

/-- C6 (code bug): the Ramp handler reads `elapsed_time.seconds`, which wraps
to 0 after one day, instead of `total_seconds()`.  On a heating ramp
(start 273.15 K, target 1273.15 K, gradient 1 K/s) two successive
kiln-temperature events at 86399 s and 86400 s after activation yield
set-points 1273.15 K and then 273.15 K: the emitted set-point drops back to
the start temperature, violating the claimed monotonicity toward the
target. -/
theorem ramp_setpoint_wraps_after_one_day :
    (ramp_handle_kiln_temperature_changed ⟨1273.15, 1⟩
        ⟨true, 273.15, 273.15, 273.15⟩ 86399 300).1.set_point_temperature_kelvin
      = 1273.15 ∧
    (ramp_handle_kiln_temperature_changed ⟨1273.15, 1⟩
        (ramp_handle_kiln_temperature_changed ⟨1273.15, 1⟩
          ⟨true, 273.15, 273.15, 273.15⟩ 86399 300).1
        86400 300).1.set_point_temperature_kelvin = 273.15 ∧
    (ramp_handle_kiln_temperature_changed ⟨1273.15, 1⟩
        (ramp_handle_kiln_temperature_changed ⟨1273.15, 1⟩
          ⟨true, 273.15, 273.15, 273.15⟩ 86399 300).1
        86400 300).1.set_point_temperature_kelvin <
      (ramp_handle_kiln_temperature_changed ⟨1273.15, 1⟩
        ⟨true, 273.15, 273.15, 273.15⟩ 86399 300).1.set_point_temperature_kelvin
    := by
  have h1 : timedeltaSeconds 86399 = 86399 := by
    unfold timedeltaSeconds
    rw [show ((86399 : ℚ)) = ((86399 : ℤ) : ℚ) by norm_num, Int.floor_intCast]
    decide
  have h2 : timedeltaSeconds 86400 = 0 := by
    unfold timedeltaSeconds
    rw [show ((86400 : ℚ)) = ((86400 : ℤ) : ℚ) by norm_num, Int.floor_intCast]
    decide
  have ha : (ramp_handle_kiln_temperature_changed ⟨1273.15, 1⟩
      ⟨true, 273.15, 273.15, 273.15⟩ 86399 300).1 =
      ⟨true, 273.15, 300, 1273.15⟩ := by
    simp [ramp_handle_kiln_temperature_changed, h1, temperature_target_tolerance]
    norm_num
    split <;> rfl
  have hb : (ramp_handle_kiln_temperature_changed ⟨1273.15, 1⟩
      (ramp_handle_kiln_temperature_changed ⟨1273.15, 1⟩
        ⟨true, 273.15, 273.15, 273.15⟩ 86399 300).1
      86400 300).1 = ⟨true, 273.15, 300, 273.15⟩ := by
    rw [ha]
    simp [ramp_handle_kiln_temperature_changed, h2, temperature_target_tolerance]
    norm_num
    split <;> rfl
  refine ⟨by rw [ha], by rw [hb], by rw [hb, ha]; norm_num⟩

/-! ## Segment activation (`schedule.py`, `handle_schedule_next_segment`)

`SCHEDULE_NEXT_SEGMENT_EVENT` carries the next segment object as payload;
each subscribed segment compares it with `self` by identity.  We model
segment identity by position in the schedule's segment list. -/

/-- Handler `FiringSegment.handle_schedule_next_segment`: when the payload is not
this segment, deactivate and return; when it is, activate, record the start
temperature from the latest reading, and post an initial
`SEGMENT_SET_POINT_CHANGED_EVENT` seeded with it, then
`SEGMENT_STARTED_EVENT`. -/
def segment_handle_schedule_next_segment (self data : Nat)
    (st : SegmentState) : SegmentState × List SegmentEvent :=
  if data ≠ self then ({ st with is_active := false }, [])
  else
    ({ st with
        is_active := true,
        start_temperature_kelvin := st.latest_kiln_temperature_kelvin },
      [SegmentEvent.setPointChanged st.latest_kiln_temperature_kelvin,
       SegmentEvent.segmentStarted])

/-- A completed dispatch of one `SCHEDULE_NEXT_SEGMENT_EVENT` with payload
`data` to every segment of the schedule, in order.  (All segments subscribe
in `FiringSegment.__init__` and none unsubscribes, so every segment handles
the event.) -/
def dispatchScheduleNextSegment (states : List SegmentState) (data : Nat) :
    List SegmentState :=
  states.mapIdx fun i st => (segment_handle_schedule_next_segment i data st).1

/-- C7: after a completed dispatch of `SCHEDULE_NEXT_SEGMENT_EVENT` naming
segment `data`, a segment is active exactly when it is the named one — so at
most one segment is active, and every other segment's `is_active` is
`false`. -/
theorem next_segment_single_active (states : List SegmentState)
    (data i : Nat) (hi : i < states.length) :
    (((dispatchScheduleNextSegment states data).get
        ⟨i, by simpa [dispatchScheduleNextSegment] using hi⟩).is_active = true
      ↔ i = data) := by
  unfold dispatchScheduleNextSegment
  rw [List.get_mapIdx states _ i hi]
  unfold segment_handle_schedule_next_segment
  by_cases h : data = i
  · simp [h]
  · simp [h, Ne.symm h]

/-- Witness for `next_segment_single_active`: three segments, payload 1,
inspecting segment 2. -/
theorem next_segment_single_active_witness :
    (((dispatchScheduleNextSegment
          [⟨true, 0, 0, 0⟩, ⟨false, 0, 0, 0⟩, ⟨false, 0, 0, 0⟩] 1).get
        ⟨2, by simp [dispatchScheduleNextSegment]⟩).is_active = true ↔
      2 = 1) :=
  next_segment_single_active
    [⟨true, 0, 0, 0⟩, ⟨false, 0, 0, 0⟩, ⟨false, 0, 0, 0⟩] 1 2 (by decide)

/-! ## FiringSchedule construction (`schedule.py`, `__init__`)

`__init__` normalises units from the schedule configuration and builds one
firing segment per well-formed entry; after appending (or not) it always
executes `firing_time += self.segments[-1].predicted_elapsed_seconds`, and
`self.segments[-1]` raises `IndexError` while the list is still empty. -/

inductive TemperatureScale where
  | SCALE_KELVIN
  | SCALE_CELSIUS
  | SCALE_FAHRENHEIT
deriving DecidableEq

inductive HoldTimeScale where
  | HOLD_HOURS
  | HOLD_MINUTES
  | HOLD_SECONDS
deriving DecidableEq

inductive GradientTimeBase where
  | DEGREES_PER_HOUR
  | DEGREES_PER_MINUTE
  | DEGREES_PER_SECOND
deriving DecidableEq

/-- Conversion `FiringSchedule.temperature_to_kelvin` (`SCALE_CENTIGRADE` is an alias of
`SCALE_CELSIUS` in the enum). -/
def temperature_to_kelvin (value : ℚ) : TemperatureScale → ℚ
  | .SCALE_KELVIN => value
  | .SCALE_CELSIUS => value + 273.15
  | .SCALE_FAHRENHEIT => (value - 32) * 5 / 9 + 273.15

/-- Conversion `FiringSchedule.time_to_seconds`. -/
def time_to_seconds (value : ℚ) : HoldTimeScale → ℚ
  | .HOLD_SECONDS => value
  | .HOLD_MINUTES => value * 60
  | .HOLD_HOURS => value * 3600

/-- Conversion `FiringSchedule.gradient_to_kelvin_per_second`. -/
def gradient_to_kelvin_per_second (value : ℚ) (scale : TemperatureScale)
    (timebase : GradientTimeBase) : ℚ :=
  let timebase_factor : ℚ :=
    match timebase with
    | .DEGREES_PER_MINUTE => 60
    | .DEGREES_PER_HOUR => 3600
    | .DEGREES_PER_SECOND => 1
  let scale_factor : ℚ :=
    match scale with
    | .SCALE_FAHRENHEIT => 5 / 9
    | _ => 1
  value * scale_factor / timebase_factor

/-- One entry of the configuration's `segments` list (the label plays no role
in segment construction). -/
structure SegEntry where
  target_temperature : ℚ
  temperature_gradient : Option ℚ
  hold_time : Option ℚ
deriving DecidableEq

/-- A firing segment as built by `FiringSchedule.__init__`, with its
normalised configuration. -/
inductive BuiltSegment where
  | hold (target_kelvin seconds : ℚ)
  | ramp (target_kelvin kelvin_per_second : ℚ)
deriving DecidableEq

/-- The segments the loop body appends for one entry: a `FiringSegmentHold`
when only `hold_time` is set, a `FiringSegmentRamp` when only
`temperature_gradient` is set, nothing when both or neither are set. -/
def segmentsForEntry (scale : TemperatureScale) (hscale : HoldTimeScale)
    (tbase : GradientTimeBase) (e : SegEntry) : List BuiltSegment :=
  match e.hold_time, e.temperature_gradient with
  | some h, none =>
      [.hold (temperature_to_kelvin e.target_temperature scale)
        (time_to_seconds h hscale)]
  | none, some g =>
      [.ramp (temperature_to_kelvin e.target_temperature scale)
        (gradient_to_kelvin_per_second g scale tbase)]
  | _, _ => []

/-- Predicate: `true` when exactly one of `hold_time` / `temperature_gradient` is set. -/
def wellFormedEntry (e : SegEntry) : Bool :=
  (e.hold_time.isSome && !e.temperature_gradient.isSome) ||
    (!e.hold_time.isSome && e.temperature_gradient.isSome)

/-- The `for segment in self.configuration.segments` loop of
`FiringSchedule.__init__`, carrying the `self.segments` list built so far;
after each entry it reads `self.segments[-1]`, an `IndexError` (modelled by
`Except.error`) when the list is still empty. -/
def buildSegmentsAux (scale : TemperatureScale) (hscale : HoldTimeScale)
    (tbase : GradientTimeBase) :
    List SegEntry → List BuiltSegment → Except Unit (List BuiltSegment)
  | [], acc => .ok acc
  | e :: rest, acc =>
    let acc2 := acc ++ segmentsForEntry scale hscale tbase e
    match acc2.getLast? with
    | none => .error ()
    | some _ => buildSegmentsAux scale hscale tbase rest acc2

/-- The segment list `FiringSchedule.__init__` builds from the configured
entries, or the `IndexError` it raises. -/
def firingScheduleSegments (scale : TemperatureScale)
    (hscale : HoldTimeScale) (tbase : GradientTimeBase)
    (entries : List SegEntry) : Except Unit (List BuiltSegment) :=
  buildSegmentsAux scale hscale tbase entries []

lemma segmentsForEntry_eq_nil_of_not_wellFormed (scale : TemperatureScale)
    (hscale : HoldTimeScale) (tbase : GradientTimeBase) (e : SegEntry)
    (h : wellFormedEntry e = false) :
    segmentsForEntry scale hscale tbase e = [] := by
  unfold wellFormedEntry at h
  unfold segmentsForEntry
  rcases hh : e.hold_time with _ | x <;> rcases hg : e.temperature_gradient
    with _ | y <;> simp [hh, hg] at h ⊢

lemma segmentsForEntry_ne_nil_of_wellFormed (scale : TemperatureScale)
    (hscale : HoldTimeScale) (tbase : GradientTimeBase) (e : SegEntry)
    (h : wellFormedEntry e = true) :
    segmentsForEntry scale hscale tbase e ≠ [] := by
  unfold wellFormedEntry at h
  unfold segmentsForEntry
  rcases hh : e.hold_time with _ | x <;> rcases hg : e.temperature_gradient
    with _ | y <;> simp [hh, hg] at h ⊢

lemma buildSegmentsAux_of_acc_ne_nil (scale : TemperatureScale)
    (hscale : HoldTimeScale) (tbase : GradientTimeBase) :
    ∀ (entries : List SegEntry) (acc : List BuiltSegment), acc ≠ [] →
      buildSegmentsAux scale hscale tbase entries acc =
        .ok (acc ++ entries.flatMap (segmentsForEntry scale hscale tbase)) := by
  intro entries
  induction entries with
  | nil => intro acc _; simp [buildSegmentsAux]
  | cons e rest ih =>
    intro acc hacc
    have hacc2 : acc ++ segmentsForEntry scale hscale tbase e ≠ [] := by
      simp [hacc]
    rcases hlast : (acc ++ segmentsForEntry scale hscale tbase e).getLast? with
      _ | b
    · exact absurd (List.getLast?_eq_none_iff.mp hlast) hacc2
    · simp only [buildSegmentsAux, hlast]
      rw [ih _ hacc2]
      simp [List.flatMap_cons]

/-- C8 (amended): a segment entry with both `temperature_gradient` and
`hold_time` set, or neither, contributes no firing segment; construction
succeeds — building segments from exactly the well-formed entries, in
order — precisely when the schedule's first entry is well-formed; when the
first entry is malformed, construction raises an `IndexError`
(`self.segments[-1]` on the still-empty list) instead of succeeding. -/
theorem schedule_build_omits_malformed (scale : TemperatureScale)
    (hscale : HoldTimeScale) (tbase : GradientTimeBase) (e : SegEntry)
    (rest : List SegEntry) :
    (wellFormedEntry e = true →
      firingScheduleSegments scale hscale tbase (e :: rest) =
        .ok ((e :: rest).flatMap (segmentsForEntry scale hscale tbase))) ∧
      (wellFormedEntry e = false →
        firingScheduleSegments scale hscale tbase (e :: rest) = .error ()) ∧
      (∀ entries : List SegEntry,
        entries.flatMap (segmentsForEntry scale hscale tbase) =
          (entries.filter wellFormedEntry).flatMap
            (segmentsForEntry scale hscale tbase)) := by
  refine ⟨?_, ?_, ?_⟩
  · intro hwf
    have hne := segmentsForEntry_ne_nil_of_wellFormed scale hscale tbase e hwf
    unfold firingScheduleSegments
    rcases hlast : ([] ++ segmentsForEntry scale hscale tbase e).getLast? with
      _ | b
    · exact absurd (List.getLast?_eq_none_iff.mp hlast) (by simpa using hne)
    · simp only [buildSegmentsAux, hlast]
      rw [buildSegmentsAux_of_acc_ne_nil scale hscale tbase rest _
        (by simpa using hne)]
      simp [List.flatMap_cons]
  · intro hbad
    have hnil := segmentsForEntry_eq_nil_of_not_wellFormed scale hscale tbase
      e hbad
    unfold firingScheduleSegments
    simp [buildSegmentsAux, hnil]
  · intro entries
    induction entries with
    | nil => simp
    | cons a l ih =>
      by_cases ha : wellFormedEntry a
      · simp [List.flatMap_cons, List.filter_cons, ha, ih]
      · simp only [Bool.not_eq_true] at ha
        simp [List.flatMap_cons, List.filter_cons, ha, ih,
          segmentsForEntry_eq_nil_of_not_wellFormed scale hscale tbase a ha]

/-- Witness for `schedule_build_omits_malformed`: a well-formed hold entry
followed by a malformed entry with both fields set. -/
theorem schedule_build_omits_malformed_witness :
    (wellFormedEntry ⟨500, none, some 10⟩ = true →
      firingScheduleSegments .SCALE_KELVIN .HOLD_SECONDS .DEGREES_PER_SECOND
          [⟨500, none, some 10⟩, ⟨600, some 1, some 10⟩] =
        .ok ([⟨500, none, some 10⟩, ⟨600, some 1, some 10⟩].flatMap
          (segmentsForEntry .SCALE_KELVIN .HOLD_SECONDS
            .DEGREES_PER_SECOND))) ∧
      (wellFormedEntry ⟨500, none, some 10⟩ = false →
        firingScheduleSegments .SCALE_KELVIN .HOLD_SECONDS .DEGREES_PER_SECOND
            [⟨500, none, some 10⟩, ⟨600, some 1, some 10⟩] = .error ()) ∧
      (∀ entries : List SegEntry,
        entries.flatMap (segmentsForEntry .SCALE_KELVIN .HOLD_SECONDS
            .DEGREES_PER_SECOND) =
          (entries.filter wellFormedEntry).flatMap
            (segmentsForEntry .SCALE_KELVIN .HOLD_SECONDS
              .DEGREES_PER_SECOND)) :=
  schedule_build_omits_malformed .SCALE_KELVIN .HOLD_SECONDS
    .DEGREES_PER_SECOND ⟨500, none, some 10⟩ [⟨600, some 1, some 10⟩]

/-- C8 (counterexample): a schedule whose single entry has BOTH
`temperature_gradient` and `hold_time` set does not construct successfully:
the loop appends nothing for the malformed entry and the subsequent
`self.segments[-1]` raises `IndexError`.  The claim asserts construction
succeeds for every such configuration. -/
theorem schedule_build_error_on_leading_malformed :
    firingScheduleSegments .SCALE_KELVIN .HOLD_SECONDS .DEGREES_PER_SECOND
        [⟨500, some 1, some 10⟩] = .error () ∧
      firingScheduleSegments .SCALE_KELVIN .HOLD_SECONDS .DEGREES_PER_SECOND
        [⟨500, some 1, some 10⟩] ≠ .ok [] := by
  exact ⟨rfl, fun h => by simp [firingScheduleSegments, buildSegmentsAux,
    segmentsForEntry] at h⟩

end KilnRunner
